import Mathlib

/-!
Shallow embedding of the reconciliation core of `src/bot.py` (RTC-ResultGrabberBot).

The spreadsheet ("sheet T") is modelled as a total function from (row, column)
coordinates to cell values.  A cell value is either a string or an integer
(`gspread.update_cell` is called with both strings and Python ints in the
source; reading a cell back through the API yields its decimal string form,
which `CellVal.pyStr` models).  An empty cell is the empty string, which also
absorbs the `value or ""` idiom of the source.

Python string primitives used by the source (`str.strip`, `str.lower`,
`str.upper`, `str(int)`, `int(digitstring)`, `re.sub(r"[^\d]", "", s)`) are
modelled by the structural functions `pyStrip`, `pyLower`, `pyUpper`,
`natToString`, `digitsToNat` and `strDigits` below, so that every definition
evaluates inside the kernel.
-/

set_option maxRecDepth 4000

namespace RTC

/-- Coordinates of one spreadsheet cell: (row, column), both 1-based as in gspread. -/
abbrev Cell := Nat × Nat

/-- Value stored in a cell: a string, or an integer as written by
`sheet.update_cell(r, c, some_int)` in the source. -/
inductive CellVal where
  | str (s : String)
  | num (n : Nat)
deriving DecidableEq

/-- Character for the decimal digit d (only used with d < 10). -/
def digitChar (d : Nat) : Char := Char.ofNat (48 + d)

/-- Fuel-driven accumulator producing the decimal digit characters of n,
most significant first.  Structural recursion on the fuel keeps it
kernel-reducible. -/
def natToDigitCharsAux : Nat → Nat → List Char → List Char
  | 0, _, acc => acc
  | fuel + 1, n, acc =>
    let c := digitChar (n % 10)
    if n < 10 then c :: acc else natToDigitCharsAux fuel (n / 10) (c :: acc)

/-- Decimal digit characters of n, most significant first (models Python str(int)). -/
def natToDigitChars (n : Nat) : List Char := natToDigitCharsAux (n + 1) n []

/-- Decimal string of n; models Python str(n) for a non-negative int. -/
def natToString (n : Nat) : String := (natToDigitChars n).asString

/-- Reference recursion for the decimal digits of n, used only in proofs. -/
def natDigitsRef (n : Nat) : List Char :=
  if _h : n < 10 then [digitChar n]
  else natDigitsRef (n / 10) ++ [digitChar (n % 10)]
decreasing_by exact Nat.div_lt_self (by omega) (by omega)

/-- String form a Python `gspread` read yields for a stored cell value. -/
def CellVal.pyStr : CellVal → String
  | .str s => s
  | .num n => natToString n

/-- The sheet: a total assignment of values to cells. -/
abbrev Store := Cell → CellVal

/-- Model of `sheet.update_cell(r, c, v)`: the store after writing v at (r, c). -/
def update_cell (s : Store) (r c : Nat) (v : CellVal) : Store :=
  fun p => if p = (r, c) then v else s p

/-- Model of Python `str.strip()`: drop whitespace from both ends. -/
def pyStrip (s : String) : String :=
  (((s.toList.dropWhile Char.isWhitespace).reverse.dropWhile Char.isWhitespace).reverse).asString

/-- Model of Python `str.lower()` (ASCII, which is all the source compares). -/
def pyLower (s : String) : String := (s.toList.map Char.toLower).asString

/-- Model of Python `str.upper()` (ASCII, which is all the source compares). -/
def pyUpper (s : String) : String := (s.toList.map Char.toUpper).asString

/-- Value of a digit character (only used on characters 0-9). -/
def charVal (c : Char) : Nat := c.toNat - 48

/-- Base-10 integer denoted by a digit-character string, as Python int() reads it. -/
def digitsToNat (l : List Char) : Nat := l.foldl (fun a c => a * 10 + charVal c) 0

/-- Model of `re.sub(r"[^\d]", "", z)`: the digit characters of z in order. -/
def strDigits (z : String) : List Char := z.toList.filter Char.isDigit

/-! Sheet layout constants, verbatim from the source. -/

def COL_OFFSET_PER_RACE : Nat := 14
def ROW_OFFSET_PER_GRID : Nat := 20
def FIRST_DATA_ROW : Nat := 5
def FIRST_COL_RACE1 : Nat := 2
def FASTEST_LAP_ROW : Nat := 3

/-- Logical field names of the REL offset dictionary in the source. -/
inductive Field where
  | grid_label
  | position
  | driver
  | team
  | car
  | racetime
  | laps
  | fl_driver
  | fl_time
deriving DecidableEq

/-- The REL dictionary: column offset of each field from the start of a race
column span.  Note fl_driver and fl_time reuse offsets 4 and 5. -/
def REL : Field → Nat
  | .grid_label => 0
  | .position => 1
  | .driver => 2
  | .team => 3
  | .car => 4
  | .racetime => 5
  | .laps => 6
  | .fl_driver => 4
  | .fl_time => 5

/-- Start column of a race (Nat subtraction matches the source for rennen ≥ 1,
the only values the callers produce). -/
def col_start (rennen : Nat) : Nat :=
  FIRST_COL_RACE1 + (rennen - 1) * COL_OFFSET_PER_RACE

/-- Start row of a grid block. -/
def row_start (block : Nat) : Nat :=
  FIRST_DATA_ROW + block * ROW_OFFSET_PER_GRID

/-- Cell of a (race, block, position, field) tuple, as in `get_cell` of the source. -/
def get_cell (rennen block position : Nat) (field : Field) : Cell :=
  (row_start block + (position - 1), col_start rennen + REL field)

/-- Cell holding the grid label of a block, as in `get_grid_label_cell`. -/
def get_grid_label_cell (rennen block : Nat) : Cell :=
  (row_start block, col_start rennen + REL .grid_label)

/-! Block resolution (`read_grid_label`, `resolve_block`, `shift_block`). -/

/-- Model of `read_grid_label`: read the grid-label cell of a block and
normalise it with strip + lower, absorbing a missing value into "". -/
def read_grid_label (s : Store) (rennen block : Nat) : String :=
  pyLower (pyStrip ((s (get_grid_label_cell rennen block)).pyStr))

/-- One primitive sheet mutation performed by `shift_block`: copy the current
string value of a source cell into a destination cell, or clear a cell. -/
inductive SheetOp where
  | copy (src dst : Cell)
  | clear (c : Cell)

/-- Effect of one primitive mutation on the store.  A copy reads the source
cell at execution time, exactly as `sheet.update_cell(dr, dc,
sheet.cell(sr, sc).value or "")` does. -/
def applySheetOp (s : Store) : SheetOp → Store
  | .copy src dst => update_cell s dst.1 dst.2 (.str ((s src).pyStr))
  | .clear c => update_cell s c.1 c.2 (.str (""))

/-- Per-position fields moved by `shift_block` (team is not moved). -/
def copiedFields : List Field := [.driver, .car, .racetime, .laps]

/-- The seven per-position data fields of a block (the REL entries that do
not alias the fastest-lap row). -/
def dataFields : List Field :=
  [.grid_label, .position, .driver, .team, .car, .racetime, .laps]

/-- Source/destination cell pairs of `shift_block` in execution order: the
grid-label cell first, then positions 1..20, each with driver, car,
racetime and laps. -/
def shiftPairs (rennen src_block dst_block : Nat) : List (Cell × Cell) :=
  (get_grid_label_cell rennen src_block, get_grid_label_cell rennen dst_block) ::
    (List.range 20).flatMap (fun i =>
      copiedFields.map (fun f =>
        (get_cell rennen src_block (i + 1) f, get_cell rennen dst_block (i + 1) f)))

/-- Primitive operation list for a list of copy pairs: for each pair first the
copy into the destination, then the clear of the source. -/
def pairOps (ps : List (Cell × Cell)) : List SheetOp :=
  ps.flatMap (fun p => [.copy p.1 p.2, .clear p.1])

/-- Primitive operations of `shift_block` in execution order. -/
def shift_ops (rennen src_block dst_block : Nat) : List SheetOp :=
  pairOps (shiftPairs rennen src_block dst_block)

/-- Model of `shift_block`: final store after all copy/clear mutations. -/
def shift_block (s : Store) (rennen src_block dst_block : Nat) : Store :=
  (shift_ops rennen src_block dst_block).foldl applySheetOp s

/-- Every intermediate store reached while `shift_block` runs, including the
initial and the final one. -/
def shift_states (s : Store) (rennen src_block dst_block : Nat) : List Store :=
  (shift_ops rennen src_block dst_block).scanl applySheetOp s

/-- Model of `resolve_block`: map a requested grid label to a physical block,
performing the block 2 → block 3 relocation in the "2b" case.  Returns the
chosen block together with the (possibly mutated) store. -/
def resolve_block (s : Store) (rennen : Nat) (grid_label : String) : Nat × Store :=
  let gl := pyLower (pyStrip grid_label)
  if gl = "1" then (0, s)
  else if gl = "2" ∨ gl = "2a" then (1, s)
  else
    let label_block2 := read_grid_label s rennen 2
    if gl = "3" then ((if label_block2 = "2b" then 3 else 2), s)
    else if gl = "2b" then
      (2, if label_block2 = "3" then shift_block s rennen 2 3 else s)
    else (2, s)

/-! Time parsing (`clean_time`). -/

/-- Characters of the separator class `[-:,\.]` in the DNF/placeholder regex. -/
def isSepChar (c : Char) : Bool :=
  c = Char.ofNat 45 || c = Char.ofNat 58 || c = Char.ofNat 44 || c = Char.ofNat 46

/-- Model of matching `^(\d+)\s*(Runden?|Laps?)$` case-insensitively against an
already stripped token: leading digits, optional whitespace, then one of
Runde/Runden/Lap/Laps in any letter case, and nothing after it. -/
def lapsMatch (z : String) : Option Nat :=
  let cs := z.toList
  let ds := cs.takeWhile Char.isDigit
  let rest := cs.dropWhile Char.isDigit
  if ds = [] then none
  else
    let word := ((rest.dropWhile Char.isWhitespace).map Char.toLower).asString
    if word = "runde" ∨ word = "runden" ∨ word = "lap" ∨ word = "laps" then
      some (digitsToNat ds)
    else none

/-- Model of `clean_time`: raw time token to
(racetime integer or none, lap count or none). -/
def clean_time (zeit : String) : Option Nat × Option Nat :=
  if zeit = "" then (none, none)
  else
    let z := pyStrip zeit
    if pyUpper z = "DNF" ∨ (z ≠ "" ∧ z.toList.all isSepChar) then (none, none)
    else
      match lapsMatch z with
      | some n => (none, some n)
      | none =>
        let digits := strDigits z
        (if digits = [] then none else some (digitsToNat digits), none)

/-! Delta validation (`validate_deltas`). -/

/-- One extracted driver row of the JSON record (position, name, auto, zeit,
beste_runde), the fields `write_results` and `validate_deltas` consume. -/
structure Fahrer where
  position : Nat
  name : String
  auto : String
  zeit : String
  beste_runde : String
deriving DecidableEq

/-- Insert a driver into a position-sorted list, after all entries with a
position not larger than its own (stable insertion). -/
def insertByPos (f : Fahrer) : List Fahrer → List Fahrer
  | [] => [f]
  | g :: rest => if g.position < f.position then g :: insertByPos f rest
                 else f :: g :: rest

/-- Model of Python `sorted(fahrer_list, key=lambda x: x["position"])`:
the unique stable sort by ascending position. -/
def sortedByPosition (l : List Fahrer) : List Fahrer :=
  l.foldr insertByPos []

/-- Loop body of `validate_deltas`: state is (errors so far, last parsable
racetime seen). -/
def delta_step (acc : List Nat × Option Nat) (f : Fahrer) : List Nat × Option Nat :=
  if f.position = 1 then acc
  else
    match (clean_time f.zeit).1 with
    | none => acc
    | some racetime =>
      match acc.2 with
      | some prev =>
        if racetime ≤ prev then (acc.1 ++ [f.position], some racetime)
        else (acc.1, some racetime)
      | none => (acc.1, some racetime)

/-- Model of `validate_deltas`: positions whose delta violates monotonicity. -/
def validate_deltas (fahrer_list : List Fahrer) : List Nat :=
  ((sortedByPosition fahrer_list).foldl delta_step ([], none)).1

/-- Specification-level scan for delta validation, written after the words of
the specification: walk the sorted list, skip position 1, flag a position
whose parsable racetime is at most the last parsable racetime seen, advance
the baseline to every parsable value, skip unparsable entries. -/
def delta_scan_spec : Option Nat → List Fahrer → List Nat
  | _, [] => []
  | baseline, f :: rest =>
    if f.position = 1 then delta_scan_spec baseline rest
    else
      match (clean_time f.zeit).1 with
      | none => delta_scan_spec baseline rest
      | some racetime =>
        (match baseline with
         | some prev => if racetime ≤ prev then [f.position] else []
         | none => []) ++ delta_scan_spec (some racetime) rest

/-! Fastest lap (`update_fastest_lap`). -/

/-- Cell holding the fastest-lap driver of a race (row 3, offset fl_driver). -/
def fl_driver_cell (rennen : Nat) : Cell :=
  (FASTEST_LAP_ROW, col_start rennen + REL .fl_driver)

/-- Cell holding the fastest-lap time of a race (row 3, offset fl_time). -/
def fl_time_cell (rennen : Nat) : Cell :=
  (FASTEST_LAP_ROW, col_start rennen + REL .fl_time)

/-- Model of `update_fastest_lap`: overwrite driver and time unless the stored
time cell already holds digits whose value is at most the candidate. -/
def update_fastest_lap (s : Store) (rennen : Nat) (new_driver : String)
    (new_time_int : Nat) : Store :=
  let current_val := (s (fl_time_cell rennen)).pyStr
  if current_val ≠ "" ∧
      ((current_val.toList.filter Char.isDigit) ≠ [] ∧
        digitsToNat (current_val.toList.filter Char.isDigit) ≤ new_time_int) then s
  else
    update_cell
      (update_cell s (fl_driver_cell rennen).1 (fl_driver_cell rennen).2 (.str new_driver))
      (fl_time_cell rennen).1 (fl_time_cell rennen).2 (.num new_time_int)

/-- Numeric value the fastest-lap update would compare against: none when the
time cell is empty or its string form contains no digit. -/
def flStored (s : Store) (rennen : Nat) : Option Nat :=
  let v := (s (fl_time_cell rennen)).pyStr
  if v = "" then none
  else if (v.toList.filter Char.isDigit) = [] then none
  else some (digitsToNat (v.toList.filter Char.isDigit))

/-- Feed a sequence of (driver, normalized lap value) candidates through the
fastest-lap update in order. -/
def feedFL (s : Store) (rennen : Nat) (cands : List (String × Nat)) : Store :=
  cands.foldl (fun st p => update_fastest_lap st rennen p.1 p.2) s

/-- Minimum candidate value of a non-empty candidate list (0 for the empty list). -/
def minOfCands : List (String × Nat) → Nat
  | [] => 0
  | p :: ps => ps.foldl (fun a q => min a q.2) p.2

/-! Reconciliation engine (`write_results`). -/

/-- One extracted JSON record: race number, grid label, driver rows. -/
structure RaceData where
  rennen : Nat
  grid : String
  fahrer : List Fahrer

/-- Accumulated state of the per-driver loop of `write_results`. -/
structure WState where
  warnings : List String
  batch : List (Cell × CellVal)
  red_cells : List Cell
  first_pos : Option Nat
  fastest : Option (String × Nat)

/-- Result of `write_results`: the returned tuple pieces together with the
batched writes, the error-highlight cells and the store after commit. -/
structure WResult where
  warnings : List String
  rennen : Nat
  grid_label : String
  first_pos : Option Nat
  batch : List (Cell × CellVal)
  red_cells : List Cell
  block : Nat
  sheet_after : Store

/-- Warning text for a driver name missing from both driver tables. -/
def warn_driver (rennen : Nat) (grid_label : String) (pos : Nat) (name_raw : String) : String :=
  "Rennen " ++ natToString rennen ++ ", Grid " ++ grid_label ++ ", Pos " ++
    natToString pos ++ ", " ++ name_raw ++ ": Fahrer nicht in Fahrerliste"

/-- Apostrophe character, kept out of string literals. -/
def apoChar : Char := Char.ofNat 39

/-- Warning text for a car name not found in the translation table. -/
def warn_auto (rennen : Nat) (grid_label : String) (pos : Nat) (name auto : String) : String :=
  "Rennen " ++ natToString rennen ++ ", Grid " ++ grid_label ++ ", Pos " ++
    natToString pos ++ ", " ++ name ++ ": Auto " ++ (String.singleton apoChar) ++ auto ++
    (String.singleton apoChar) ++ " nicht erkannt - bitte manuell pruefen"

/-- Warning text for a delta violation. -/
def warn_delta (grid_label : String) (pos : Nat) (name : String) : String :=
  "Grid " ++ grid_label ++ ", Pos " ++ natToString pos ++ ", " ++ name ++
    ": Zeit ist zu pruefen"

/-- Warning text for a lap-deficit time that must be entered manually. -/
def warn_manual (grid_label : String) (pos : Nat) (name : String) : String :=
  "Grid " ++ grid_label ++ ", Pos " ++ natToString pos ++ ", " ++ name ++
    ": Zeit muss manuell eingetragen werden."

/-- Loop body of `write_results` for one driver row.  ctm is the car
translation map, dm the driver table keyed by table name, gm the driver
table keyed by GT7 name; all three are consulted lower-cased. -/
def write_step (ctm : String → Option String) (dm gm : String → Option (String × String))
    (rennen : Nat) (grid_label : String) (block : Nat) (delta_errors : List Nat)
    (st : WState) (fahrer : Fahrer) : WState :=
  let pos := fahrer.position
  let name_raw := fahrer.name
  let auto_raw := fahrer.auto
  let auto := (ctm (pyLower auto_raw)).getD auto_raw
  let auto_unbekannt := auto = auto_raw ∧ ctm (pyLower auto_raw) = none
  let first_pos := match st.first_pos with
    | none => some pos
    | some p => some p
  let ntw := match dm (pyLower name_raw) with
    | some nt => (nt.1, nt.2, st.warnings, st.red_cells)
    | none =>
      match gm (pyLower name_raw) with
      | some nt => (nt.1, nt.2, st.warnings, st.red_cells)
      | none =>
        (name_raw, "", st.warnings ++ [warn_driver rennen grid_label pos name_raw],
          st.red_cells ++ [get_cell rennen block pos .driver])
  let name := ntw.1
  let team := ntw.2.1
  let warnings1 := ntw.2.2.1
  let red1 := ntw.2.2.2
  let racetime := (clean_time fahrer.zeit).1
  let laps := (clean_time fahrer.zeit).2
  let batch2 := st.batch ++
    [(get_cell rennen block pos .driver, .str name),
     (get_cell rennen block pos .team, .str team),
     (get_cell rennen block pos .car, .str auto),
     (get_cell rennen block pos .racetime,
       match racetime with
       | some rt => .num rt
       | none => .str ("")),
     (get_cell rennen block pos .laps,
       match laps with
       | some lp => .num lp
       | none => .str (""))]
  let wr2 := if auto_unbekannt then
      (warnings1 ++ [warn_auto rennen grid_label pos name auto],
        red1 ++ [get_cell rennen block pos .car])
    else (warnings1, red1)
  let wr3 := if pos ∈ delta_errors then
      (wr2.1 ++ [warn_delta grid_label pos name],
        wr2.2 ++ [get_cell rennen block pos .racetime])
    else wr2
  let warnings4 := match laps with
    | some _ => wr3.1 ++ [warn_manual grid_label pos name]
    | none => wr3.1
  let fastest2 :=
    if fahrer.beste_runde ≠ "" then
      if strDigits fahrer.beste_runde ≠ [] then
        match st.fastest with
        | none => some (name, digitsToNat (strDigits fahrer.beste_runde))
        | some ft =>
          if digitsToNat (strDigits fahrer.beste_runde) < ft.2 then
            some (name, digitsToNat (strDigits fahrer.beste_runde))
          else some ft
      else st.fastest
    else st.fastest
  ⟨warnings4, batch2, wr3.2, first_pos, fastest2⟩

/-- Latest value assigned to a cell in a batch, mirroring Python dict
assignment semantics (a later assignment to the same key wins). -/
def dictGet (b : List (Cell × CellVal)) (c : Cell) : Option CellVal :=
  b.foldl (fun acc kv => if kv.1 = c then some kv.2 else acc) none

/-- Store after `sheet.batch_update` applies every batched write. -/
def applyBatch (s : Store) (b : List (Cell × CellVal)) : Store :=
  b.foldl (fun acc kv => update_cell acc kv.1.1 kv.1.2 kv.2) s

/-- Model of `write_results`: resolve the block, validate deltas, process the
drivers sorted by position, commit the batch and finally the fastest-lap
candidate.  Formatting (grey colouring) is presentation only and not
modelled; red_cells captures the error highlights. -/
def write_results (ctm : String → Option String) (dm gm : String → Option (String × String))
    (s : Store) (data : RaceData) (rennen_override : Option Nat) : WResult :=
  let rennen := rennen_override.getD data.rennen
  let grid_label := pyStrip data.grid
  let rb := resolve_block s rennen grid_label
  let block := rb.1
  let s1 := rb.2
  let delta_errors := validate_deltas data.fahrer
  let st0 : WState := ⟨[], [(get_grid_label_cell rennen block, .str grid_label)], [], none, none⟩
  let st := (sortedByPosition data.fahrer).foldl
    (write_step ctm dm gm rennen grid_label block delta_errors) st0
  let s2 := applyBatch s1 st.batch
  let s3 := match st.fastest with
    | some ft => if ft.1 ≠ "" then update_fastest_lap s2 rennen ft.1 ft.2 else s2
    | none => s2
  ⟨st.warnings, rennen, grid_label, st.first_pos, st.batch, st.red_cells, block, s3⟩

/-! Quota scheduling (the daily branch of `call_gemini`). -/

/-- Local wall-clock instant with the fields `datetime.replace` manipulates.
The day is an ordinal day count, absorbing calendar rollover. -/
structure LocalTime where
  day : Nat
  hour : Nat
  minute : Nat
  second : Nat
  micro : Nat
deriving DecidableEq

/-- Microseconds since day 0, the order `datetime` comparison realises for
in-range field values. -/
def LocalTime.absMicro (t : LocalTime) : Nat :=
  (((t.day * 24 + t.hour) * 60 + t.minute) * 60 + t.second) * 1000000 + t.micro

/-- Model of the daily-quota branch of `call_gemini`:
`reset = now.replace(hour=9, minute=0, second=0, microsecond=0)` and, when
`now >= reset`, `reset += timedelta(days=1)`. -/
def daily_reset (now : LocalTime) : LocalTime :=
  let reset : LocalTime := ⟨now.day, 9, 0, 0, 0⟩
  if reset.absMicro ≤ now.absMicro then ⟨reset.day + 1, 9, 0, 0, 0⟩ else reset

/-! Auxiliary notions and concrete fixtures used by the theorems below. -/

/-- All cells touched by a list of copy pairs, sources and destinations. -/
def cellsOf (ps : List (Cell × Cell)) : List Cell :=
  ps.flatMap (fun p => [p.1, p.2])

/-- The cells `shift_block rennen 2 3` touches, as (row, column offset) pairs
relative to the start column of the race. -/
def relShiftCells : List (Nat × Nat) :=
  (45, 0) :: (65, 0) ::
    (List.range 20).flatMap (fun i =>
      [(45 + i, 2), (65 + i, 2), (45 + i, 4), (65 + i, 4),
       (45 + i, 5), (65 + i, 5), (45 + i, 6), (65 + i, 6)])

/-- A sheet with every cell empty. -/
def blank_store : Store := fun _ => .str ("")

/-- A sheet where race 1 block 2 is labelled grid 3 and its position 1 driver
cell holds a name; everything else is empty. -/
def s0 : Store := fun c =>
  if c = (45, 2) then .str ("3")
  else if c = (45, 4) then .str ("Alice")
  else .str ("")

/-- A sheet whose race 1 fastest-lap time cell holds a digitless placeholder. -/
def s10 : Store := fun c =>
  if c = (3, 7) then .str ("n/a") else .str ("")

/-- Canonical car-name list fixture (the DB_tech column R contents). -/
def car_list0 : List String := ["Audi R8"]

/-- Empty car translation table fixture. -/
def ctm0 : String → Option String := fun _ => none

/-- Driver table fixture resolving the lower-cased key of Max. -/
def dm0 : String → Option (String × String) := fun k =>
  if k = "max" then some ("Max", "T1") else none

/-- Empty GT7-name driver table fixture. -/
def gm0 : String → Option (String × String) := fun _ => none

/-- Record fixture for claim C5: one driver whose raw car name is canonical
(it occurs in car_list0) but absent from the translation table. -/
def data5 : RaceData := ⟨1, "1", [⟨1, "Max", "Audi R8", "1:00,000", ""⟩]⟩

/-- Car translation table fixture resolving the lower-cased GT-R. -/
def ctm9 : String → Option String := fun k =>
  if k = "gt-r" then some ("Nissan GT-R") else none

/-- Record fixture for claim C9: one driver with a DNF time whose name and car
both resolve, so the only possible warning would be the manual-entry one. -/
def data9 : RaceData := ⟨2, "1", [⟨2, "Max", "GT-R", "DNF", ""⟩]⟩

/-- Driver rows of the delta-validation scenario of the specification. -/
def fahrerScenario : List Fahrer :=
  [⟨1, "A", "X", "50:28,752", ""⟩, ⟨2, "B", "Y", "+06,425", ""⟩, ⟨3, "C", "Z", "+03,000", ""⟩]

/-! Theorems.  First the decimal-string roundtrip machinery for values the
engine writes as integers and later reads back as strings. -/

theorem charVal_digitChar (d : Nat) (h : d < 10) : charVal (digitChar d) = d := by
  interval_cases d <;> decide

theorem isDigit_digitChar (d : Nat) (h : d < 10) : (digitChar d).isDigit = true := by
  interval_cases d <;> decide

theorem digitsToNat_natDigitsRef (n : Nat) : digitsToNat (natDigitsRef n) = n := by
  induction n using Nat.strong_induction_on with
  | _ n ih =>
    rw [natDigitsRef]
    by_cases h : n < 10
    · simp only [dif_pos h, digitsToNat, List.foldl_cons, List.foldl_nil]
      rw [charVal_digitChar n h]
      omega
    · simp only [dif_neg h, digitsToNat, List.foldl_append, List.foldl_cons, List.foldl_nil]
      have h10 : n / 10 < n := Nat.div_lt_self (by omega) (by omega)
      have hrec := ih (n / 10) h10
      rw [digitsToNat] at hrec
      rw [hrec, charVal_digitChar (n % 10) (Nat.mod_lt n (by omega))]
      omega

theorem natDigitsRef_all_digit (n : Nat) : ∀ c ∈ natDigitsRef n, c.isDigit = true := by
  induction n using Nat.strong_induction_on with
  | _ n ih =>
    rw [natDigitsRef]
    by_cases h : n < 10
    · simp only [dif_pos h, List.mem_singleton]
      rintro c rfl
      exact isDigit_digitChar n h
    · simp only [dif_neg h, List.mem_append, List.mem_singleton]
      rintro c (hc | rfl)
      · exact ih (n / 10) (Nat.div_lt_self (by omega) (by omega)) c hc
      · exact isDigit_digitChar (n % 10) (Nat.mod_lt n (by omega))

theorem natDigitsRef_ne_nil (n : Nat) : natDigitsRef n ≠ [] := by
  rw [natDigitsRef]
  by_cases h : n < 10 <;> simp [h]

theorem natToDigitCharsAux_eq (fuel : Nat) : ∀ n acc, 0 < fuel → n < 10 ^ fuel →
    natToDigitCharsAux fuel n acc = natDigitsRef n ++ acc := by
  induction fuel with
  | zero => intro n acc h; omega
  | succ fuel ih =>
    intro n acc _ hlt
    by_cases h : n < 10
    · simp only [natToDigitCharsAux, if_pos h]
      rw [natDigitsRef]
      simp only [dif_pos h, List.singleton_append, Nat.mod_eq_of_lt h]
    · simp only [natToDigitCharsAux, if_neg h]
      have hf : 0 < fuel := by
        rcases Nat.eq_zero_or_pos fuel with h0 | h0
        · subst h0; simp at hlt; omega
        · exact h0
      have hdiv : n / 10 < 10 ^ fuel := by
        have hmul : n < 10 ^ fuel * 10 := by
          have hp : (10 : Nat) ^ (fuel + 1) = 10 ^ fuel * 10 := by ring
          omega
        exact (Nat.div_lt_iff_lt_mul (by omega)).mpr hmul
      rw [ih (n / 10) (digitChar (n % 10) :: acc) hf hdiv]
      have hRHS : natDigitsRef n = natDigitsRef (n / 10) ++ [digitChar (n % 10)] := by
        conv_lhs => rw [natDigitsRef]
        simp [h]
      rw [hRHS]
      simp

theorem natToDigitChars_eq_ref (n : Nat) : natToDigitChars n = natDigitsRef n := by
  have h1 : n < 10 ^ (n + 1) := by
    calc n < 2 ^ n := Nat.lt_two_pow n
    _ ≤ 10 ^ n := Nat.pow_le_pow_left (by omega) n
    _ ≤ 10 ^ (n + 1) := Nat.pow_le_pow_right (by omega) (by omega)
  have h2 := natToDigitCharsAux_eq (n + 1) n [] (by omega) h1
  simpa [natToDigitChars] using h2

theorem digitsToNat_natToDigitChars (n : Nat) : digitsToNat (natToDigitChars n) = n := by
  rw [natToDigitChars_eq_ref]
  exact digitsToNat_natDigitsRef n

theorem natToDigitChars_all_digit (n : Nat) : ∀ c ∈ natToDigitChars n, c.isDigit = true := by
  rw [natToDigitChars_eq_ref]
  exact natDigitsRef_all_digit n

theorem natToDigitChars_ne_nil (n : Nat) : natToDigitChars n ≠ [] := by
  rw [natToDigitChars_eq_ref]
  exact natDigitsRef_ne_nil n

theorem natToString_ne_empty (n : Nat) : natToString n ≠ "" := by
  intro h
  have h2 : (natToString n).toList = ("" : String).toList := by rw [h]
  have h3 : natToDigitChars n = [] := h2
  exact natToDigitChars_ne_nil n h3

theorem natToString_filter_digits (n : Nat) :
    (natToString n).toList.filter Char.isDigit = natToDigitChars n := by
  have h1 : (natToString n).toList = natToDigitChars n := rfl
  rw [h1]
  exact List.filter_eq_self.mpr (natToDigitChars_all_digit n)

/-! Pointwise behaviour of the primitive sheet mutations. -/

theorem update_cell_same (s : Store) (r c : Nat) (v : CellVal) :
    update_cell s r c v (r, c) = v := by
  simp [update_cell]

theorem update_cell_other (s : Store) (r c : Nat) (v : CellVal) (x : Cell)
    (h : x ≠ (r, c)) : update_cell s r c v x = s x := by
  simp [update_cell, h]

theorem applySheetOp_copy_at (s : Store) (src dst : Cell) :
    applySheetOp s (.copy src dst) dst = .str ((s src).pyStr) := by
  simp [applySheetOp, update_cell]

theorem applySheetOp_copy_other (s : Store) (src dst x : Cell) (h : x ≠ dst) :
    applySheetOp s (.copy src dst) x = s x := by
  simp only [applySheetOp]
  exact update_cell_other _ _ _ _ x (by simpa using h)

theorem applySheetOp_clear_at (s : Store) (c : Cell) :
    applySheetOp s (.clear c) c = .str ("") := by
  simp [applySheetOp, update_cell]

theorem applySheetOp_clear_other (s : Store) (c x : Cell) (h : x ≠ c) :
    applySheetOp s (.clear c) x = s x := by
  simp only [applySheetOp]
  exact update_cell_other _ _ _ _ x (by simpa using h)

/-! Generic lemmas about a copy-then-clear pass over a list of cell pairs. -/

theorem pairOps_cons (p : Cell × Cell) (rest : List (Cell × Cell)) :
    pairOps (p :: rest) = .copy p.1 p.2 :: .clear p.1 :: pairOps rest := rfl

theorem cellsOf_cons (p : Cell × Cell) (rest : List (Cell × Cell)) :
    cellsOf (p :: rest) = p.1 :: p.2 :: cellsOf rest := rfl

theorem mem_cellsOf_left (ps : List (Cell × Cell)) (p : Cell × Cell) (hp : p ∈ ps) :
    p.1 ∈ cellsOf ps := by
  rw [cellsOf, List.mem_flatMap]
  exact ⟨p, hp, by simp⟩

theorem mem_cellsOf_right (ps : List (Cell × Cell)) (p : Cell × Cell) (hp : p ∈ ps) :
    p.2 ∈ cellsOf ps := by
  rw [cellsOf, List.mem_flatMap]
  exact ⟨p, hp, by simp⟩

theorem not_mem_cells (ps : List (Cell × Cell)) (x : Cell) (hx : x ∉ cellsOf ps) :
    ∀ p ∈ ps, x ≠ p.1 ∧ x ≠ p.2 := by
  intro p hp
  constructor
  · intro h
    exact hx (h ▸ mem_cellsOf_left ps p hp)
  · intro h
    exact hx (h ▸ mem_cellsOf_right ps p hp)

theorem runPairs_untouched (ps : List (Cell × Cell)) :
    ∀ (s : Store) (x : Cell), (∀ p ∈ ps, x ≠ p.1 ∧ x ≠ p.2) →
      (pairOps ps).foldl applySheetOp s x = s x := by
  induction ps with
  | nil => intro s x _; rfl
  | cons q rest ih =>
    intro s x hx
    rw [pairOps_cons]
    simp only [List.foldl_cons]
    rw [ih _ x (fun p hp => hx p (List.mem_cons_of_mem q hp))]
    have h1 := (hx q (List.mem_cons_self q rest)).1
    have h2 := (hx q (List.mem_cons_self q rest)).2
    rw [applySheetOp_clear_other _ _ _ h1, applySheetOp_copy_other _ _ _ _ h2]

theorem statesPairs_untouched (ps : List (Cell × Cell)) :
    ∀ (s : Store) (x : Cell), (∀ p ∈ ps, x ≠ p.1 ∧ x ≠ p.2) →
      ∀ t ∈ (pairOps ps).scanl applySheetOp s, t x = s x := by
  induction ps with
  | nil =>
    intro s x _ t ht
    simp only [pairOps, List.flatMap_nil, List.scanl, List.mem_singleton] at ht
    rw [ht]
  | cons q rest ih =>
    intro s x hx t ht
    rw [pairOps_cons] at ht
    simp only [List.scanl, List.mem_cons] at ht
    have h1 := (hx q (List.mem_cons_self q rest)).1
    have h2 := (hx q (List.mem_cons_self q rest)).2
    rcases ht with rfl | rfl | ht
    · rfl
    · rw [applySheetOp_copy_other _ _ _ _ h2]
    · have hrest := ih _ x (fun p hp => hx p (List.mem_cons_of_mem q hp)) t ht
      rw [hrest, applySheetOp_clear_other _ _ _ h1, applySheetOp_copy_other _ _ _ _ h2]

theorem pairs_final (ps : List (Cell × Cell)) :
    ∀ (s : Store), (cellsOf ps).Nodup →
      ∀ p ∈ ps, (pairOps ps).foldl applySheetOp s p.2 = .str ((s p.1).pyStr) ∧
        (pairOps ps).foldl applySheetOp s p.1 = .str ("") := by
  induction ps with
  | nil => intro s _ p hp; cases hp
  | cons q rest ih =>
    intro s hnd p hp
    rw [cellsOf_cons, List.nodup_cons] at hnd
    obtain ⟨hq1, hnd2⟩ := hnd
    rw [List.nodup_cons] at hnd2
    obtain ⟨hq2, hnd3⟩ := hnd2
    have hne : q.1 ≠ q.2 := fun h => hq1 (by rw [h]; exact List.mem_cons_self _ _)
    have hq1r : q.1 ∉ cellsOf rest := fun h => hq1 (List.mem_cons_of_mem _ h)
    rw [pairOps_cons]
    simp only [List.foldl_cons]
    have hs2q2 : applySheetOp (applySheetOp s (.copy q.1 q.2)) (.clear q.1) q.2 =
        .str ((s q.1).pyStr) := by
      rw [applySheetOp_clear_other _ _ _ (Ne.symm hne), applySheetOp_copy_at]
    have hs2q1 : applySheetOp (applySheetOp s (.copy q.1 q.2)) (.clear q.1) q.1 =
        .str ("") := applySheetOp_clear_at _ _
    rcases List.mem_cons.mp hp with rfl | hp2
    · constructor
      · rw [runPairs_untouched rest _ p.2 (not_mem_cells rest p.2 hq2), hs2q2]
      · rw [runPairs_untouched rest _ p.1 (not_mem_cells rest p.1 hq1r), hs2q1]
    · have hp1mem := mem_cellsOf_left rest p hp2
      have hp1ne1 : p.1 ≠ q.1 := fun h => hq1r (h ▸ hp1mem)
      have hp1ne2 : p.1 ≠ q.2 := fun h => hq2 (h ▸ hp1mem)
      have hkeep : applySheetOp (applySheetOp s (.copy q.1 q.2)) (.clear q.1) p.1 = s p.1 := by
        rw [applySheetOp_clear_other _ _ _ hp1ne1.symm.symm,
          applySheetOp_copy_other _ _ _ _ hp1ne2]
      have hres := ih (applySheetOp (applySheetOp s (.copy q.1 q.2)) (.clear q.1)) hnd3 p hp2
      rw [hkeep] at hres
      exact hres

theorem pairs_trace (ps : List (Cell × Cell)) :
    ∀ (s : Store), (cellsOf ps).Nodup →
      ∀ t ∈ (pairOps ps).scanl applySheetOp s, ∀ p ∈ ps,
        (t p.1).pyStr = (s p.1).pyStr ∨ (t p.2).pyStr = (s p.1).pyStr := by
  induction ps with
  | nil => intro s _ t _ p hp; cases hp
  | cons q rest ih =>
    intro s hnd t ht p hp
    rw [cellsOf_cons, List.nodup_cons] at hnd
    obtain ⟨hq1, hnd2⟩ := hnd
    rw [List.nodup_cons] at hnd2
    obtain ⟨hq2, hnd3⟩ := hnd2
    have hne : q.1 ≠ q.2 := fun h => hq1 (by rw [h]; exact List.mem_cons_self _ _)
    have hq1r : q.1 ∉ cellsOf rest := fun h => hq1 (List.mem_cons_of_mem _ h)
    rw [pairOps_cons] at ht
    simp only [List.scanl, List.mem_cons] at ht
    rcases ht with rfl | rfl | ht
    · left; rfl
    · rcases List.mem_cons.mp hp with rfl | hp2
      · left
        rw [applySheetOp_copy_other _ _ _ _ hne]
      · left
        have hp1mem := mem_cellsOf_left rest p hp2
        have hp1ne2 : p.1 ≠ q.2 := fun h => hq2 (h ▸ hp1mem)
        rw [applySheetOp_copy_other _ _ _ _ hp1ne2]
    · rcases List.mem_cons.mp hp with rfl | hp2
      · right
        have huntouched := statesPairs_untouched rest
          (applySheetOp (applySheetOp s (.copy p.1 p.2)) (.clear p.1)) p.2
          (not_mem_cells rest p.2 hq2) t ht
        rw [huntouched, applySheetOp_clear_other _ _ _ (Ne.symm hne), applySheetOp_copy_at]
        rfl
      · have hp1mem := mem_cellsOf_left rest p hp2
        have hp1ne1 : p.1 ≠ q.1 := fun h => hq1r (h ▸ hp1mem)
        have hp1ne2 : p.1 ≠ q.2 := fun h => hq2 (h ▸ hp1mem)
        have hkeep : applySheetOp (applySheetOp s (.copy q.1 q.2)) (.clear q.1) p.1 = s p.1 := by
          rw [applySheetOp_clear_other _ _ _ hp1ne1,
            applySheetOp_copy_other _ _ _ _ hp1ne2]
        have hres := ih (applySheetOp (applySheetOp s (.copy q.1 q.2)) (.clear q.1)) hnd3 t ht p hp2
        rw [hkeep] at hres
        exact hres

/-! Concrete facts about the cells `shift_block rennen 2 3` touches. -/

theorem cellsOf_shiftPairs (r : Nat) :
    cellsOf (shiftPairs r 2 3) = relShiftCells.map (fun q => (q.1, col_start r + q.2)) := rfl

theorem shift_cells_nodup (r : Nat) : (cellsOf (shiftPairs r 2 3)).Nodup := by
  rw [cellsOf_shiftPairs]
  apply List.Nodup.map
  · rintro ⟨a1, a2⟩ ⟨b1, b2⟩ hab
    simp only [Prod.mk.injEq] at hab
    obtain ⟨h1, h2⟩ := hab
    have h3 : a2 = b2 := by omega
    rw [h1, h3]
  · decide

theorem offset3_not_mem (r row : Nat) :
    (row, col_start r + 3) ∉ cellsOf (shiftPairs r 2 3) := by
  rw [cellsOf_shiftPairs, List.mem_map]
  rintro ⟨q, hq, heq⟩
  simp only [Prod.mk.injEq] at heq
  have h3 : q.2 = 3 := by omega
  have hall : ∀ p ∈ relShiftCells, p.2 ≠ 3 := by decide
  exact hall q hq h3

theorem grid_pair_mem (r : Nat) :
    (get_grid_label_cell r 2, get_grid_label_cell r 3) ∈ shiftPairs r 2 3 :=
  List.mem_cons_self _ _

theorem cell_pair_mem (r pos : Nat) (f : Field) (h1 : 1 ≤ pos) (h2 : pos ≤ 20)
    (hf : f ∈ copiedFields) :
    (get_cell r 2 pos f, get_cell r 3 pos f) ∈ shiftPairs r 2 3 := by
  unfold shiftPairs
  apply List.mem_cons_of_mem
  rw [List.mem_flatMap]
  refine ⟨pos - 1, ?_, ?_⟩
  · rw [List.mem_range]; omega
  · rw [List.mem_map]
    exact ⟨f, hf, by rw [Nat.sub_add_cancel h1]⟩

theorem resolve_block_2b_unfold (s : Store) (r : Nat) :
    resolve_block s r ("2b") =
      (2, if read_grid_label s r 2 = "3" then shift_block s r 2 3 else s) := rfl

/-- C1: when the normalised grid label stored at (r, block 2) is 3, resolving
heat label 2b relocates block 2 into block 3 before returning block 2: the
grid-label cell and, for every position 1..20, the driver, car, racetime and
laps cells of block 2 are copied to block 3 and then cleared (team cells of
both blocks are untouched), and every intermediate store of the mutation
sequence still shows each copied value in block 2 or already in block 3.
When block 2 does not hold 3, resolving 2b mutates nothing and returns
block 2. -/
theorem C1_relocation_2b (s : Store) (r : Nat) :
    (read_grid_label s r 2 = "3" →
      resolve_block s r ("2b") = (2, shift_block s r 2 3) ∧
      (shift_block s r 2 3 (get_grid_label_cell r 3) =
          .str ((s (get_grid_label_cell r 2)).pyStr) ∧
        shift_block s r 2 3 (get_grid_label_cell r 2) = .str ("")) ∧
      (∀ pos, 1 ≤ pos → pos ≤ 20 → ∀ f ∈ copiedFields,
        shift_block s r 2 3 (get_cell r 3 pos f) = .str ((s (get_cell r 2 pos f)).pyStr) ∧
        shift_block s r 2 3 (get_cell r 2 pos f) = .str ("")) ∧
      (∀ pos, shift_block s r 2 3 (get_cell r 2 pos .team) = s (get_cell r 2 pos .team) ∧
        shift_block s r 2 3 (get_cell r 3 pos .team) = s (get_cell r 3 pos .team)) ∧
      (∀ t ∈ shift_states s r 2 3,
        ((t (get_grid_label_cell r 2)).pyStr = (s (get_grid_label_cell r 2)).pyStr ∨
          (t (get_grid_label_cell r 3)).pyStr = (s (get_grid_label_cell r 2)).pyStr) ∧
        (∀ pos, 1 ≤ pos → pos ≤ 20 → ∀ f ∈ copiedFields,
          (t (get_cell r 2 pos f)).pyStr = (s (get_cell r 2 pos f)).pyStr ∨
          (t (get_cell r 3 pos f)).pyStr = (s (get_cell r 2 pos f)).pyStr))) ∧
    (read_grid_label s r 2 ≠ "3" → resolve_block s r ("2b") = (2, s)) := by
  constructor
  · intro h
    refine ⟨?_, ?_, ?_, ?_, ?_⟩
    · rw [resolve_block_2b_unfold, if_pos h]
    · exact pairs_final (shiftPairs r 2 3) s (shift_cells_nodup r) _ (grid_pair_mem r)
    · intro pos hp1 hp2 f hf
      exact pairs_final (shiftPairs r 2 3) s (shift_cells_nodup r) _
        (cell_pair_mem r pos f hp1 hp2 hf)
    · intro pos
      constructor
      · exact runPairs_untouched (shiftPairs r 2 3) s _
          (not_mem_cells _ _ (offset3_not_mem r (row_start 2 + (pos - 1))))
      · exact runPairs_untouched (shiftPairs r 2 3) s _
          (not_mem_cells _ _ (offset3_not_mem r (row_start 3 + (pos - 1))))
    · intro t ht
      constructor
      · exact pairs_trace (shiftPairs r 2 3) s (shift_cells_nodup r) t ht _ (grid_pair_mem r)
      · intro pos hp1 hp2 f hf
        exact pairs_trace (shiftPairs r 2 3) s (shift_cells_nodup r) t ht _
          (cell_pair_mem r pos f hp1 hp2 hf)
  · intro h
    rw [resolve_block_2b_unfold, if_neg h]

/-- Witness for C1: on a concrete sheet whose race 1 block 2 holds grid label
3 and driver Alice at position 1, resolving 2b relocates and returns block 2,
the driver lands in block 3, and the block 2 source cells are cleared. -/
theorem C1_relocation_2b_witness :
    resolve_block s0 1 ("2b") = (2, shift_block s0 1 2 3) ∧
    shift_block s0 1 2 3 (get_cell 1 3 1 .driver) = .str ("Alice") ∧
    shift_block s0 1 2 3 (get_cell 1 2 1 .driver) = .str ("") ∧
    shift_block s0 1 2 3 (get_grid_label_cell 1 3) = .str ("3") := by
  have h := (C1_relocation_2b s0 1).1 (by decide)
  refine ⟨h.1, ?_, (h.2.2.1 1 (by decide) (by decide) Field.driver (by decide)).2, ?_⟩
  · have h2 := (h.2.2.1 1 (by decide) (by decide) Field.driver (by decide)).1
    rw [h2]
    decide
  · have h3 := h.2.1.1
    rw [h3]
    decide

theorem resolve_block_eq (s : Store) (r : Nat) (gl : String) :
    resolve_block s r gl =
      (if pyLower (pyStrip gl) = "1" then (0, s)
       else if pyLower (pyStrip gl) = "2" ∨ pyLower (pyStrip gl) = "2a" then (1, s)
       else if pyLower (pyStrip gl) = "3" then
         ((if read_grid_label s r 2 = "2b" then 3 else 2), s)
       else if pyLower (pyStrip gl) = "2b" then
         (2, if read_grid_label s r 2 = "3" then shift_block s r 2 3 else s)
       else (2, s)) := rfl

/-- C2: block resolution, after strip + lower normalisation of the requested
label, returns block 0 for label 1, block 1 for 2 or 2a, for 3 either block 3
(when block 2 currently stores 2b) or block 2, block 2 for 2b, and block 2
for any unknown label; apart from the 2b relocation it never mutates the
store, and the chosen block depends only on the label and on the grid label
read from block 2 during the call. -/
theorem C2_resolve_block (s : Store) (r : Nat) (gl : String) :
    (pyLower (pyStrip gl) = "1" → resolve_block s r gl = (0, s)) ∧
    (pyLower (pyStrip gl) = "2" ∨ pyLower (pyStrip gl) = "2a" →
      resolve_block s r gl = (1, s)) ∧
    (pyLower (pyStrip gl) = "3" →
      resolve_block s r gl = ((if read_grid_label s r 2 = "2b" then 3 else 2), s)) ∧
    (pyLower (pyStrip gl) = "2b" → (resolve_block s r gl).1 = 2) ∧
    (pyLower (pyStrip gl) ∉ ["1", "2", "2a", "2b", "3"] → resolve_block s r gl = (2, s)) ∧
    (∀ s2 : Store, read_grid_label s2 r 2 = read_grid_label s r 2 →
      (resolve_block s2 r gl).1 = (resolve_block s r gl).1) := by
  refine ⟨?_, ?_, ?_, ?_, ?_, ?_⟩
  · intro h
    rw [resolve_block_eq, h, if_pos rfl]
  · intro h
    rcases h with h | h
    · rw [resolve_block_eq, h, if_neg (by decide), if_pos (by decide)]
    · rw [resolve_block_eq, h, if_neg (by decide), if_pos (by decide)]
  · intro h
    rw [resolve_block_eq, h, if_neg (by decide), if_neg (by decide), if_pos rfl]
  · intro h
    rw [resolve_block_eq, h, if_neg (by decide), if_neg (by decide), if_neg (by decide),
      if_pos rfl]
  · intro h
    have h1 : pyLower (pyStrip gl) ≠ "1" := fun hh => h (by rw [hh]; decide)
    have h2 : pyLower (pyStrip gl) ≠ "2" := fun hh => h (by rw [hh]; decide)
    have h2a : pyLower (pyStrip gl) ≠ "2a" := fun hh => h (by rw [hh]; decide)
    have h3 : pyLower (pyStrip gl) ≠ "3" := fun hh => h (by rw [hh]; decide)
    have h2b : pyLower (pyStrip gl) ≠ "2b" := fun hh => h (by rw [hh]; decide)
    rw [resolve_block_eq, if_neg h1, if_neg (by tauto), if_neg h3, if_neg h2b]
  · intro s2 hre
    rw [resolve_block_eq s r gl, resolve_block_eq s2 r gl, hre]
    split_ifs <;> rfl

/-- Witness for C2: concrete labels on an all-empty sheet resolve to the
stated blocks, including lower-casing and whitespace stripping. -/
theorem C2_resolve_block_witness :
    resolve_block blank_store 1 ("1") = (0, blank_store) ∧
    resolve_block blank_store 1 (" 2A ") = (1, blank_store) ∧
    resolve_block blank_store 1 ("3") = (2, blank_store) ∧
    (resolve_block blank_store 1 ("2b")).1 = 2 ∧
    resolve_block blank_store 1 ("xyz") = (2, blank_store) := by
  refine ⟨(C2_resolve_block blank_store 1 ("1")).1 (by decide),
    (C2_resolve_block blank_store 1 (" 2A ")).2.1 (by decide), ?_,
    (C2_resolve_block blank_store 1 ("2b")).2.2.2.1 (by decide),
    (C2_resolve_block blank_store 1 ("xyz")).2.2.2.2.1 (by decide)⟩
  have h := (C2_resolve_block blank_store 1 ("3")).2.2.1 (by decide)
  rw [h, if_neg (by decide : ¬read_grid_label blank_store 1 2 = "2b")]

theorem clean_time_eq (zeit : String) :
    clean_time zeit =
      (if zeit = "" then (none, none)
       else if pyUpper (pyStrip zeit) = "DNF" ∨
           (pyStrip zeit ≠ "" ∧ (pyStrip zeit).toList.all isSepChar) then (none, none)
       else
         match lapsMatch (pyStrip zeit) with
         | some n => (none, some n)
         | none =>
           (if strDigits (pyStrip zeit) = [] then none
            else some (digitsToNat (strDigits (pyStrip zeit))), none)) := rfl

/-- C3: the time parser returns (none, none) for empty or whitespace-only
tokens, for DNF in any letter case, and for separator-only tokens; it returns
(none, n) when the stripped token matches the digits-then-Runden/Laps shape;
otherwise it returns the integer formed by the remaining digit characters (or
none when no digit remains) paired with none.  At most one component is ever
set, and the four scenario tokens of the specification evaluate as stated. -/
theorem C3_clean_time (z : String) :
    ((clean_time z).1 = none ∨ (clean_time z).2 = none) ∧
    (pyStrip z = "" → clean_time z = (none, none)) ∧
    (pyUpper (pyStrip z) = "DNF" → clean_time z = (none, none)) ∧
    (pyStrip z ≠ "" → (pyStrip z).toList.all isSepChar = true → clean_time z = (none, none)) ∧
    (∀ n, pyUpper (pyStrip z) ≠ "DNF" →
      ¬(pyStrip z ≠ "" ∧ (pyStrip z).toList.all isSepChar) →
      lapsMatch (pyStrip z) = some n → clean_time z = (none, some n)) ∧
    (pyUpper (pyStrip z) ≠ "DNF" →
      ¬(pyStrip z ≠ "" ∧ (pyStrip z).toList.all isSepChar) →
      lapsMatch (pyStrip z) = none →
      clean_time z =
        (if strDigits (pyStrip z) = [] then none
         else some (digitsToNat (strDigits (pyStrip z))), none)) ∧
    clean_time ("DNF") = (none, none) ∧
    clean_time ("2 Runden") = (none, some 2) ∧
    clean_time ("+06,425") = (some 6425, none) ∧
    clean_time ("50:28,752") = (some 5028752, none) := by
  refine ⟨?_, ?_, ?_, ?_, ?_, ?_, by decide, by decide, by decide, by decide⟩
  · rw [clean_time_eq]
    by_cases hz : z = ""
    · rw [if_pos hz]; left; rfl
    · rw [if_neg hz]
      by_cases hc : pyUpper (pyStrip z) = "DNF" ∨
          (pyStrip z ≠ "" ∧ (pyStrip z).toList.all isSepChar)
      · rw [if_pos hc]; left; rfl
      · rw [if_neg hc]
        cases hm : lapsMatch (pyStrip z) with
        | none => simp [hm]
        | some n => simp [hm]
  · intro h
    by_cases hz : z = ""
    · rw [clean_time_eq, if_pos hz]
    · rw [clean_time_eq, if_neg hz, h]
      decide
  · intro h
    by_cases hz : z = ""
    · rw [clean_time_eq, if_pos hz]
    · rw [clean_time_eq, if_neg hz, if_pos (Or.inl h)]
  · intro h1 h2
    have hz : z ≠ "" := by
      intro hzz
      apply h1
      rw [hzz]
      rfl
    rw [clean_time_eq, if_neg hz, if_pos (Or.inr ⟨h1, h2⟩)]
  · intro n hd hs hm
    have hz : z ≠ "" := by
      intro hzz
      rw [hzz] at hm
      have hnone : lapsMatch (pyStrip ("")) = none := rfl
      rw [hnone] at hm
      cases hm
    rw [clean_time_eq, if_neg hz, if_neg (fun hor => hor.elim hd hs), hm]
  · intro hd hs hm
    by_cases hz : z = ""
    · rw [clean_time_eq, if_pos hz, hz]
      decide
    · rw [clean_time_eq, if_neg hz, if_neg (fun hor => hor.elim hd hs), hm]

/-- Witness for C3: a lower-case padded dnf token yields (none, none), and a
laps token yields the lap count on the right component only. -/
theorem C3_clean_time_witness :
    clean_time (" dnf ") = (none, none) ∧ clean_time ("2 Laps") = (none, some 2) := by
  constructor
  · exact (C3_clean_time (" dnf ")).2.2.1 (by decide)
  · exact (C3_clean_time ("2 Laps")).2.2.2.2.1 2 (by decide) (by decide) (by decide)

/-! Properties of the stable sort by position. -/

theorem insertByPos_perm (f : Fahrer) (l : List Fahrer) :
    (insertByPos f l).Perm (f :: l) := by
  induction l with
  | nil => rfl
  | cons g rest ih =>
    rw [insertByPos]
    by_cases h : g.position < f.position
    · rw [if_pos h]
      exact (List.Perm.cons g ih).trans (List.Perm.swap f g rest)
    · rw [if_neg h]

theorem sortedByPosition_perm (l : List Fahrer) : (sortedByPosition l).Perm l := by
  induction l with
  | nil => rfl
  | cons f rest ih =>
    rw [sortedByPosition, List.foldr_cons]
    exact (insertByPos_perm f _).trans (List.Perm.cons f ih)

theorem insertByPos_sorted (f : Fahrer) (l : List Fahrer)
    (hl : l.Pairwise (fun a b => a.position ≤ b.position)) :
    (insertByPos f l).Pairwise (fun a b => a.position ≤ b.position) := by
  induction l with
  | nil => simp [insertByPos]
  | cons g rest ih =>
    rw [List.pairwise_cons] at hl
    obtain ⟨hg, hrest⟩ := hl
    rw [insertByPos]
    by_cases h : g.position < f.position
    · rw [if_pos h, List.pairwise_cons]
      constructor
      · intro x hx
        rcases List.mem_cons.mp (((insertByPos_perm f rest).mem_iff).mp hx) with hx1 | hx2
        · rw [hx1]; omega
        · exact hg x hx2
      · exact ih hrest
    · rw [if_neg h, List.pairwise_cons]
      constructor
      · intro x hx
        rcases List.mem_cons.mp hx with hx1 | hx2
        · rw [hx1]; omega
        · have := hg x hx2; omega
      · rw [List.pairwise_cons]
        exact ⟨hg, hrest⟩

theorem sortedByPosition_sorted (l : List Fahrer) :
    (sortedByPosition l).Pairwise (fun a b => a.position ≤ b.position) := by
  induction l with
  | nil => simp [sortedByPosition]
  | cons f rest ih =>
    rw [sortedByPosition, List.foldr_cons]
    exact insertByPos_sorted f _ ih

/-! Refinement of the delta-validation fold into the specification scan. -/

theorem delta_foldl_spec (l : List Fahrer) :
    ∀ (e : List Nat) (b : Option Nat),
      (l.foldl delta_step (e, b)).1 = e ++ delta_scan_spec b l := by
  induction l with
  | nil => intro e b; simp [delta_scan_spec]
  | cons f rest ih =>
    intro e b
    rw [List.foldl_cons]
    by_cases h1 : f.position = 1
    · rw [delta_scan_spec]
      rw [if_pos h1]
      have hstep : delta_step (e, b) f = (e, b) := by rw [delta_step, if_pos h1]
      rw [hstep, ih e b]
    · rw [delta_scan_spec, if_neg h1]
      cases hm : (clean_time f.zeit).1 with
      | none =>
        have hstep : delta_step (e, b) f = (e, b) := by
          rw [delta_step, if_neg h1, hm]
        rw [hstep, ih e b]
      | some rt =>
        cases b with
        | none =>
          have hstep : delta_step (e, none) f = (e, some rt) := by
            simp [delta_step, h1, hm]
          rw [hstep, ih e (some rt)]
          simp
        | some prev =>
          by_cases hle : rt ≤ prev
          · have hstep : delta_step (e, some prev) f = (e ++ [f.position], some rt) := by
              simp [delta_step, h1, hm, hle]
            rw [hstep, ih (e ++ [f.position]) (some rt)]
            simp [hle]
          · have hstep : delta_step (e, some prev) f = (e, some rt) := by
              simp [delta_step, h1, hm, hle]
            rw [hstep, ih e (some rt)]
            simp [hle]

/-- C4: the delta validator equals the specification scan over the list
sorted by ascending position (which is a sorted permutation of the input):
position 1 is skipped, every parsable racetime that is at most the most
recently seen parsable racetime is flagged, the baseline advances to every
parsable value, and unparsable entries are skipped without resetting the
baseline.  The scenario 50:28,752 / +06,425 / +03,000 flags exactly
position 3. -/
theorem C4_validate_deltas (l : List Fahrer) :
    validate_deltas l = delta_scan_spec none (sortedByPosition l) ∧
    (sortedByPosition l).Perm l ∧
    (sortedByPosition l).Pairwise (fun a b => a.position ≤ b.position) ∧
    validate_deltas fahrerScenario = [3] := by
  refine ⟨?_, sortedByPosition_perm l, sortedByPosition_sorted l, by decide⟩
  rw [validate_deltas, delta_foldl_spec (sortedByPosition l) [] none]
  simp

/-! Fastest-lap update lemmas. -/

theorem update_fastest_lap_eq (s : Store) (r : Nat) (d : String) (n : Nat) :
    update_fastest_lap s r d n =
      if (s (fl_time_cell r)).pyStr ≠ "" ∧
          (((s (fl_time_cell r)).pyStr.toList.filter Char.isDigit) ≠ [] ∧
            digitsToNat ((s (fl_time_cell r)).pyStr.toList.filter Char.isDigit) ≤ n) then s
      else
        update_cell (update_cell s (fl_driver_cell r).1 (fl_driver_cell r).2 (.str d))
          (fl_time_cell r).1 (fl_time_cell r).2 (.num n) := rfl

theorem flStored_some_inv (s : Store) (r : Nat) (m : Nat) (h : flStored s r = some m) :
    (s (fl_time_cell r)).pyStr ≠ "" ∧
    ((s (fl_time_cell r)).pyStr.toList.filter Char.isDigit) ≠ [] ∧
    digitsToNat ((s (fl_time_cell r)).pyStr.toList.filter Char.isDigit) = m := by
  simp only [flStored] at h
  by_cases hv : (s (fl_time_cell r)).pyStr = ""
  · rw [if_pos hv] at h; cases h
  · rw [if_neg hv] at h
    by_cases hf : ((s (fl_time_cell r)).pyStr.toList.filter Char.isDigit) = []
    · rw [if_pos hf] at h; cases h
    · rw [if_neg hf] at h
      exact ⟨hv, hf, Option.some.inj h⟩

theorem update_fastest_lap_of_none (s : Store) (r : Nat) (d : String) (n : Nat)
    (h : flStored s r = none) :
    update_fastest_lap s r d n =
      update_cell (update_cell s (fl_driver_cell r).1 (fl_driver_cell r).2 (.str d))
        (fl_time_cell r).1 (fl_time_cell r).2 (.num n) := by
  rw [update_fastest_lap_eq]
  apply if_neg
  rintro ⟨h1, h2, _⟩
  simp only [flStored, if_neg h1, if_neg h2] at h
  cases h

theorem update_fastest_lap_of_lt (s : Store) (r : Nat) (d : String) (n m : Nat)
    (h : flStored s r = some m) (hlt : n < m) :
    update_fastest_lap s r d n =
      update_cell (update_cell s (fl_driver_cell r).1 (fl_driver_cell r).2 (.str d))
        (fl_time_cell r).1 (fl_time_cell r).2 (.num n) := by
  obtain ⟨h1, h2, h3⟩ := flStored_some_inv s r m h
  rw [update_fastest_lap_eq]
  apply if_neg
  rintro ⟨_, _, hle⟩
  omega

theorem update_fastest_lap_of_ge (s : Store) (r : Nat) (d : String) (n m : Nat)
    (h : flStored s r = some m) (hle : m ≤ n) :
    update_fastest_lap s r d n = s := by
  obtain ⟨h1, h2, h3⟩ := flStored_some_inv s r m h
  rw [update_fastest_lap_eq]
  apply if_pos
  exact ⟨h1, h2, by omega⟩

theorem flStored_after_write (s : Store) (r : Nat) (d : String) (n : Nat) :
    flStored (update_cell (update_cell s (fl_driver_cell r).1 (fl_driver_cell r).2 (.str d))
      (fl_time_cell r).1 (fl_time_cell r).2 (.num n)) r = some n := by
  have hval : (update_cell (update_cell s (fl_driver_cell r).1 (fl_driver_cell r).2 (.str d))
      (fl_time_cell r).1 (fl_time_cell r).2 (.num n)) (fl_time_cell r) = .num n :=
    update_cell_same _ _ _ _
  simp only [flStored, hval, CellVal.pyStr]
  rw [if_neg (natToString_ne_empty n), natToString_filter_digits]
  rw [if_neg (natToDigitChars_ne_nil n), digitsToNat_natToDigitChars]

theorem update_fastest_lap_stored_min (s : Store) (r : Nat) (d : String) (n m : Nat)
    (h : flStored s r = some m) :
    flStored (update_fastest_lap s r d n) r = some (min m n) := by
  by_cases hle : m ≤ n
  · rw [update_fastest_lap_of_ge s r d n m h hle, h]
    congr 1
    omega
  · rw [update_fastest_lap_of_lt s r d n m h (by omega), flStored_after_write]
    congr 1
    omega

theorem update_fastest_lap_stored_none (s : Store) (r : Nat) (d : String) (n : Nat)
    (h : flStored s r = none) :
    flStored (update_fastest_lap s r d n) r = some n := by
  rw [update_fastest_lap_of_none s r d n h, flStored_after_write]

theorem feedFL_min (r : Nat) (l : List (String × Nat)) :
    ∀ (s : Store) (m : Nat), flStored s r = some m →
      flStored (feedFL s r l) r = some (l.foldl (fun a q => min a q.2) m) := by
  induction l with
  | nil => intro s m h; exact h
  | cons p rest ih =>
    intro s m h
    simp only [feedFL, List.foldl_cons]
    have h1 := update_fastest_lap_stored_min s r p.1 p.2 m h
    have h2 := ih (update_fastest_lap s r p.1 p.2) (min m p.2) h1
    simp only [feedFL] at h2
    exact h2

/-- C6: the tracker overwrites both fastest-lap cells exactly when no stored
time value exists or the candidate is strictly smaller; an equal or larger
candidate leaves the store untouched, the stored value after one update is
the minimum of old and candidate (so it never increases), and feeding any
candidate sequence into an empty cell leaves, after each step, exactly the
minimum candidate value seen so far. -/
theorem C6_fastest_lap_tracker (s : Store) (r : Nat) (d : String) (n : Nat) :
    (flStored s r = none →
      update_fastest_lap s r d n =
        update_cell (update_cell s (fl_driver_cell r).1 (fl_driver_cell r).2 (.str d))
          (fl_time_cell r).1 (fl_time_cell r).2 (.num n) ∧
      flStored (update_fastest_lap s r d n) r = some n) ∧
    (∀ m, flStored s r = some m → n < m →
      update_fastest_lap s r d n =
        update_cell (update_cell s (fl_driver_cell r).1 (fl_driver_cell r).2 (.str d))
          (fl_time_cell r).1 (fl_time_cell r).2 (.num n)) ∧
    (∀ m, flStored s r = some m → m ≤ n → update_fastest_lap s r d n = s) ∧
    (∀ m, flStored s r = some m →
      flStored (update_fastest_lap s r d n) r = some (min m n) ∧ min m n ≤ m) ∧
    (∀ l : List (String × Nat), flStored s r = none → ∀ k : Nat,
      flStored (feedFL s r (((d, n) :: l).take (k + 1))) r =
        some (minOfCands (((d, n) :: l).take (k + 1)))) := by
  refine ⟨?_, ?_, ?_, ?_, ?_⟩
  · intro h
    exact ⟨update_fastest_lap_of_none s r d n h, update_fastest_lap_stored_none s r d n h⟩
  · intro m h hlt
    exact update_fastest_lap_of_lt s r d n m h hlt
  · intro m h hle
    exact update_fastest_lap_of_ge s r d n m h hle
  · intro m h
    exact ⟨update_fastest_lap_stored_min s r d n m h, by omega⟩
  · intro l h k
    rw [List.take_succ_cons]
    simp only [feedFL, List.foldl_cons]
    have h1 := update_fastest_lap_stored_none s r d n h
    have h2 := feedFL_min r (l.take k) (update_fastest_lap s r d n) n h1
    simp only [feedFL] at h2
    exact h2

/-- Witness for C6: feeding candidates 5, 7, 3 into an empty fastest-lap cell
leaves the minimum 3 stored. -/
theorem C6_fastest_lap_tracker_witness :
    flStored (feedFL blank_store 1 [("A", 5), ("B", 7), ("C", 3)]) 1 = some 3 :=
  (C6_fastest_lap_tracker blank_store 1 ("A") 5).2.2.2.2 [("B", 7), ("C", 3)] (by decide) 2

/-- C10: a non-empty but digitless stored fastest-lap time is treated exactly
like an absent value: any candidate overwrites both the driver cell and the
time cell. -/
theorem C10_digitless_fastest_lap (s : Store) (r : Nat) (d : String) (n : Nat) (v : String)
    (hv : s (fl_time_cell r) = .str v) (hne : v ≠ "")
    (hnd : v.toList.filter Char.isDigit = []) :
    update_fastest_lap s r d n =
      update_cell (update_cell s (fl_driver_cell r).1 (fl_driver_cell r).2 (.str d))
        (fl_time_cell r).1 (fl_time_cell r).2 (.num n) ∧
    update_fastest_lap s r d n (fl_driver_cell r) = .str d ∧
    update_fastest_lap s r d n (fl_time_cell r) = .num n := by
  have hnone : flStored s r = none := by
    simp [flStored, hv, CellVal.pyStr, hnd, hne]
    intro x hx
    by_contra hdig
    simp at hdig
    have hmem : x ∈ List.filter Char.isDigit v.toList := List.mem_filter.mpr ⟨hx, hdig⟩
    rw [hnd] at hmem
    cases hmem
  have hmain := update_fastest_lap_of_none s r d n hnone
  have hneq : fl_driver_cell r ≠ fl_time_cell r := by
    intro h
    simp only [fl_driver_cell, fl_time_cell, REL, Prod.mk.injEq] at h
    omega
  refine ⟨hmain, ?_, ?_⟩
  · rw [hmain, update_cell_other _ _ _ _ _ (by simpa using hneq), update_cell_same]
  · rw [hmain, update_cell_same]

/-- Witness for C10: with the placeholder n/a stored as fastest-lap time, a
candidate with value 999 overwrites both cells. -/
theorem C10_digitless_fastest_lap_witness :
    update_fastest_lap s10 1 ("Bob") 999 (fl_driver_cell 1) = .str ("Bob") ∧
    update_fastest_lap s10 1 ("Bob") 999 (fl_time_cell 1) = .num 999 := by
  have h := C10_digitless_fastest_lap s10 1 ("Bob") 999 ("n/a") (by decide) (by decide) (by decide)
  exact ⟨h.2.1, h.2.2⟩

/-- Counterexample to C7: the field-offset table maps car and fl_driver to
the same offset 4, so the two distinct tuples (block 0, position 1, car) and
(block 0, position 1, fl_driver) denote the same cell of race 1 and the cell
map is not injective over all nine fields of the table. -/
theorem C7_cell_injectivity_cex :
    Field.car ≠ Field.fl_driver ∧
    get_cell 1 0 1 .car = get_cell 1 0 1 .fl_driver := by
  constructor
  · decide
  · rfl

/-- C7 amended: restricted to the seven per-position data fields (grid-label,
position, driver, team, car, racetime, laps) — excluding the fastest-lap
aliases fl_driver and fl_time, which reuse offsets 4 and 5 — the cell map of
a fixed race is injective over blocks, positions 1..20 and fields. -/
theorem C7_cell_injectivity_amended (r b1 b2 p1 p2 : Nat) (f1 f2 : Field)
    (hp1 : 1 ≤ p1) (hp1b : p1 ≤ 20) (hp2 : 1 ≤ p2) (hp2b : p2 ≤ 20)
    (hf1 : f1 ∈ dataFields) (hf2 : f2 ∈ dataFields)
    (heq : get_cell r b1 p1 f1 = get_cell r b2 p2 f2) :
    b1 = b2 ∧ p1 = p2 ∧ f1 = f2 := by
  simp only [get_cell, Prod.mk.injEq] at heq
  obtain ⟨hrow, hcol⟩ := heq
  have hREL : REL f1 = REL f2 := by omega
  have hfeq : f1 = f2 := by
    have hdec : ∀ g1 ∈ dataFields, ∀ g2 ∈ dataFields, REL g1 = REL g2 → g1 = g2 := by decide
    exact hdec f1 hf1 f2 hf2 hREL
  refine ⟨?_, ?_, hfeq⟩
  · simp only [row_start, FIRST_DATA_ROW, ROW_OFFSET_PER_GRID] at hrow
    omega
  · simp only [row_start, FIRST_DATA_ROW, ROW_OFFSET_PER_GRID] at hrow
    omega

/-- Witness for C7 amended: a concrete instantiation with satisfied bounds. -/
theorem C7_cell_injectivity_amended_witness :
    (0 : Nat) = 0 ∧ (5 : Nat) = 5 ∧ Field.racetime = Field.racetime :=
  C7_cell_injectivity_amended 1 0 0 5 5 .racetime .racetime (by decide) (by decide)
    (by decide) (by decide) (by decide) (by decide) rfl

/-- C8: a daily-quota block computed at local time t sets blocked-until to
the same day 09:00 when t is strictly before 09:00 and to the next day 09:00
otherwise (for in-range minute, second and microsecond fields). -/
theorem C8_daily_reset (t : LocalTime) (hm : t.minute < 60) (hs : t.second < 60)
    (hu : t.micro < 1000000) :
    (t.hour < 9 → daily_reset t = ⟨t.day, 9, 0, 0, 0⟩) ∧
    (9 ≤ t.hour → daily_reset t = ⟨t.day + 1, 9, 0, 0, 0⟩) := by
  constructor
  · intro h
    simp only [daily_reset]
    split_ifs with hc
    · simp only [LocalTime.absMicro] at hc
      omega
    · rfl
  · intro h
    simp only [daily_reset]
    split_ifs with hc
    · rfl
    · simp only [LocalTime.absMicro] at hc
      omega

/-- Witness for C8: the two scenario instants of the specification, 23:50 to
next day 09:00 and 08:00 to same day 09:00. -/
theorem C8_daily_reset_witness :
    daily_reset ⟨0, 23, 50, 0, 0⟩ = ⟨1, 9, 0, 0, 0⟩ ∧
    daily_reset ⟨0, 8, 0, 0, 0⟩ = ⟨0, 9, 0, 0, 0⟩ := by
  constructor
  · exact (C8_daily_reset ⟨0, 23, 50, 0, 0⟩ (by decide) (by decide) (by decide)).2 (by decide)
  · exact (C8_daily_reset ⟨0, 8, 0, 0, 0⟩ (by decide) (by decide) (by decide)).1 (by decide)

/-- Counterexample to C5: the engine flags a raw car name that is present in
the canonical car list (car_list0) but absent from the translation table —
`write_results` never consults the canonical list, so an already-canonical
name is flagged red with an unresolved-car warning, contradicting the claim
that such a name is never flagged. -/
theorem C5_car_flagging_cex :
    ("Audi R8" ∈ car_list0) ∧
    get_cell 1 0 1 .car ∈ (write_results ctm0 dm0 gm0 blank_store data5 (some 1)).red_cells ∧
    warn_auto 1 ("1") 1 ("Max") ("Audi R8") ∈
      (write_results ctm0 dm0 gm0 blank_store data5 (some 1)).warnings := by
  refine ⟨by decide, by decide, by decide⟩

/-- Counterexample to C9: a driver whose raw time is DNF (unparsable, not a
lap deficit) gets an empty racetime cell in the batch, but the engine emits
no warning at all for the record, contradicting the claimed manual-entry
warning for every unparsable time. -/
theorem C9_unparsable_warning_cex :
    (clean_time ("DNF")).1 = none ∧ (clean_time ("DNF")).2 = none ∧
    dictGet (write_results ctm9 dm0 gm0 blank_store data9 (some 1)).batch
      (get_cell 1 0 2 .racetime) = some (.str ("")) ∧
    (write_results ctm9 dm0 gm0 blank_store data9 (some 1)).warnings = [] := by
  refine ⟨by decide, by decide, by decide, by decide⟩

/-! Unfolding lemmas for `write_results` on a single-driver record. -/

theorem validate_deltas_singleton (f : Fahrer) : validate_deltas [f] = [] := by
  rw [validate_deltas]
  show ((([f]).foldl delta_step ([], none)).1) = []
  rw [List.foldl_cons, List.foldl_nil]
  by_cases h1 : f.position = 1
  · simp [delta_step, h1]
  · cases hm : (clean_time f.zeit).1 <;> simp [delta_step, h1, hm]

theorem sortedByPosition_singleton (f : Fahrer) : sortedByPosition [f] = [f] := rfl

theorem write_results_singleton_core (ctm : String → Option String)
    (dm gm : String → Option (String × String)) (s : Store) (data : RaceData)
    (f : Fahrer) (r0 : Nat) (hf : data.fahrer = [f]) :
    (write_results ctm dm gm s data (some r0)).warnings =
      (write_step ctm dm gm r0 (pyStrip data.grid)
        (resolve_block s r0 (pyStrip data.grid)).1 []
        ⟨[], [(get_grid_label_cell r0 (resolve_block s r0 (pyStrip data.grid)).1,
          .str (pyStrip data.grid))], [], none, none⟩ f).warnings ∧
    (write_results ctm dm gm s data (some r0)).batch =
      (write_step ctm dm gm r0 (pyStrip data.grid)
        (resolve_block s r0 (pyStrip data.grid)).1 []
        ⟨[], [(get_grid_label_cell r0 (resolve_block s r0 (pyStrip data.grid)).1,
          .str (pyStrip data.grid))], [], none, none⟩ f).batch ∧
    (write_results ctm dm gm s data (some r0)).red_cells =
      (write_step ctm dm gm r0 (pyStrip data.grid)
        (resolve_block s r0 (pyStrip data.grid)).1 []
        ⟨[], [(get_grid_label_cell r0 (resolve_block s r0 (pyStrip data.grid)).1,
          .str (pyStrip data.grid))], [], none, none⟩ f).red_cells ∧
    (write_results ctm dm gm s data (some r0)).block =
      (resolve_block s r0 (pyStrip data.grid)).1 ∧
    (write_results ctm dm gm s data (some r0)).grid_label = pyStrip data.grid := by
  simp only [write_results, hf, validate_deltas_singleton, Option.getD_some,
    sortedByPosition_singleton, List.foldl_cons, List.foldl_nil]
  simp

theorem get_cell_field_ne (r b p : Nat) (f1 f2 : Field) (h : REL f1 ≠ REL f2) :
    get_cell r b p f1 ≠ get_cell r b p f2 := by
  intro hh
  simp only [get_cell, Prod.mk.injEq] at hh
  omega

theorem dictGet_six_fourth (e1 e2 e3 e4 e5 e6 : Cell × CellVal) (c : Cell)
    (h4 : e4.1 = c) (h5 : e5.1 ≠ c) (h6 : e6.1 ≠ c) :
    dictGet [e1, e2, e3, e4, e5, e6] c = some e4.2 := by
  simp only [dictGet, List.foldl_cons, List.foldl_nil]
  rw [if_pos h4, if_neg h5, if_neg h6]

theorem dictGet_six_fifth (e1 e2 e3 e4 e5 e6 : Cell × CellVal) (c : Cell)
    (h5 : e5.1 = c) (h6 : e6.1 ≠ c) :
    dictGet [e1, e2, e3, e4, e5, e6] c = some e5.2 := by
  simp only [dictGet, List.foldl_cons, List.foldl_nil]
  rw [if_pos h5, if_neg h6]

/-- C5 amended: for a processed car name, if the lower-cased raw name is in
the translation table the canonical name is substituted and the car cell is
not flagged; if it is absent the raw name is kept and the car cell is always
flagged (red cell plus unresolved-car warning) — the canonical car-name list
is not consulted by the engine, so even an already-canonical name is
flagged.  Stated for a single-driver record. -/
theorem C5_car_resolution_amended (ctm : String → Option String)
    (dm gm : String → Option (String × String)) (s : Store) (data : RaceData)
    (f : Fahrer) (r0 : Nat) (hf : data.fahrer = [f]) :
    (∀ canon, ctm (pyLower f.auto) = some canon →
      dictGet (write_results ctm dm gm s data (some r0)).batch
          (get_cell r0 (write_results ctm dm gm s data (some r0)).block f.position .car) =
        some (.str canon) ∧
      get_cell r0 (write_results ctm dm gm s data (some r0)).block f.position .car ∉
        (write_results ctm dm gm s data (some r0)).red_cells) ∧
    (ctm (pyLower f.auto) = none →
      dictGet (write_results ctm dm gm s data (some r0)).batch
          (get_cell r0 (write_results ctm dm gm s data (some r0)).block f.position .car) =
        some (.str f.auto) ∧
      get_cell r0 (write_results ctm dm gm s data (some r0)).block f.position .car ∈
        (write_results ctm dm gm s data (some r0)).red_cells ∧
      ∃ nm, warn_auto r0 (write_results ctm dm gm s data (some r0)).grid_label f.position nm
          f.auto ∈ (write_results ctm dm gm s data (some r0)).warnings) := by
  obtain ⟨hwarn, hbatch, hred, hblk, hgl⟩ :=
    write_results_singleton_core ctm dm gm s data f r0 hf
  rw [hwarn, hbatch, hred, hblk, hgl]
  have hrc : get_cell r0 (resolve_block s r0 (pyStrip data.grid)).1 f.position .racetime ≠
      get_cell r0 (resolve_block s r0 (pyStrip data.grid)).1 f.position .car :=
    get_cell_field_ne _ _ _ _ _ (by decide)
  have hlc : get_cell r0 (resolve_block s r0 (pyStrip data.grid)).1 f.position .laps ≠
      get_cell r0 (resolve_block s r0 (pyStrip data.grid)).1 f.position .car :=
    get_cell_field_ne _ _ _ _ _ (by decide)
  have hdc : get_cell r0 (resolve_block s r0 (pyStrip data.grid)).1 f.position .car ≠
      get_cell r0 (resolve_block s r0 (pyStrip data.grid)).1 f.position .driver :=
    get_cell_field_ne _ _ _ _ _ (by decide)
  constructor
  · intro canon hctm
    constructor
    · simp only [write_step, hctm, Option.getD_some, List.cons_append, List.nil_append]
      exact dictGet_six_fourth _ _ _ _ _ _ _ rfl hrc hlc
    · rcases hdm : dm (pyLower f.name) with _ | nt
      · rcases hgm : gm (pyLower f.name) with _ | nt2
        · simp [write_step, hctm, hdm, hgm, hdc]
        · simp [write_step, hctm, hdm, hgm]
      · simp [write_step, hctm, hdm]
  · intro hctm
    refine ⟨?_, ?_, ?_⟩
    · simp only [write_step, hctm, Option.getD_none, List.cons_append, List.nil_append]
      exact dictGet_six_fourth _ _ _ _ _ _ _ rfl hrc hlc
    · simp [write_step, hctm]
    · rcases hdm : dm (pyLower f.name) with _ | nt
      · rcases hgm : gm (pyLower f.name) with _ | nt2
        · rcases hlp : (clean_time f.zeit).2 with _ | lp
          · exact ⟨f.name, by simp [write_step, hctm, hdm, hgm, hlp]⟩
          · exact ⟨f.name, by simp [write_step, hctm, hdm, hgm, hlp]⟩
        · rcases hlp : (clean_time f.zeit).2 with _ | lp
          · exact ⟨nt2.1, by simp [write_step, hctm, hdm, hgm, hlp]⟩
          · exact ⟨nt2.1, by simp [write_step, hctm, hdm, hgm, hlp]⟩
      · rcases hlp : (clean_time f.zeit).2 with _ | lp
        · exact ⟨nt.1, by simp [write_step, hctm, hdm, hlp]⟩
        · exact ⟨nt.1, by simp [write_step, hctm, hdm, hlp]⟩

/-- Witness for C5 amended: the raw name GT-R is translated to its canonical
table name and the car cell is not flagged. -/
theorem C5_car_resolution_amended_witness :
    dictGet (write_results ctm9 dm0 gm0 blank_store data9 (some 1)).batch
        (get_cell 1 (write_results ctm9 dm0 gm0 blank_store data9 (some 1)).block 2 .car) =
      some (.str ("Nissan GT-R")) ∧
    get_cell 1 (write_results ctm9 dm0 gm0 blank_store data9 (some 1)).block 2 .car ∉
      (write_results ctm9 dm0 gm0 blank_store data9 (some 1)).red_cells :=
  (C5_car_resolution_amended ctm9 dm0 gm0 blank_store data9 ⟨2, "Max", "GT-R", "DNF", ""⟩ 1
    rfl).1 ("Nissan GT-R") (by decide)

/-! Batched-write semantics and warning-string machinery for C9. -/

theorem strData_append (a b : String) : (a ++ b).data = a.data ++ b.data := rfl

theorem dictGet_foldl_acc (rest : List (Cell × CellVal)) (c : Cell) :
    ∀ a : Option CellVal,
      rest.foldl (fun acc kv => if kv.1 = c then some kv.2 else acc) a =
        (match dictGet rest c with
         | some v => some v
         | none => a) := by
  induction rest with
  | nil => intro a; simp [dictGet]
  | cons kv rest ih =>
    intro a
    simp only [dictGet, List.foldl_cons] at *
    rw [ih, ih (if kv.1 = c then some kv.2 else none)]
    cases hd : dictGet rest c with
    | some v => simp [dictGet] at hd; rw [hd]
    | none =>
      simp [dictGet] at hd
      rw [hd]
      by_cases hc : kv.1 = c <;> simp [hc]

theorem applyBatch_get (b : List (Cell × CellVal)) :
    ∀ (s : Store) (c : Cell), applyBatch s b c = (dictGet b c).getD (s c) := by
  induction b with
  | nil => intro s c; rfl
  | cons kv rest ih =>
    intro s c
    simp only [applyBatch, dictGet, List.foldl_cons]
    have ih2 := ih (update_cell s kv.1.1 kv.1.2 kv.2) c
    simp only [applyBatch] at ih2
    rw [ih2]
    have hacc := dictGet_foldl_acc rest c (if kv.1 = c then some kv.2 else none)
    cases hd : dictGet rest c with
    | some v =>
      rw [hd] at hacc
      simp only [hacc, hd, Option.getD_some]
    | none =>
      rw [hd] at hacc
      simp only [hacc, hd, Option.getD_none]
      by_cases hc : kv.1 = c
      · simp only [if_pos hc, Option.getD_some]
        rw [← hc]
        exact update_cell_same s kv.1.1 kv.1.2 kv.2
      · simp only [if_neg hc, Option.getD_none]
        exact update_cell_other s kv.1.1 kv.1.2 kv.2 c (by simpa using fun h => hc h.symm)

theorem update_fastest_lap_off_row (s : Store) (r : Nat) (d : String) (n : Nat) (c : Cell)
    (h : c.1 ≠ FASTEST_LAP_ROW) : update_fastest_lap s r d n c = s c := by
  rw [update_fastest_lap_eq]
  split_ifs
  · rfl
  · have h1 : c ≠ ((fl_time_cell r).1, (fl_time_cell r).2) := by
      intro hh
      exact h (congrArg Prod.fst hh)
    have h2 : c ≠ ((fl_driver_cell r).1, (fl_driver_cell r).2) := by
      intro hh
      exact h (congrArg Prod.fst hh)
    rw [update_cell_other _ _ _ _ _ h1, update_cell_other _ _ _ _ _ h2]

theorem warn_manual_ne_warn_driver (gl nm : String) (pos : Nat) (r pos2 : Nat)
    (gl2 nm2 : String) : warn_manual gl pos nm ≠ warn_driver r gl2 pos2 nm2 := by
  intro h
  have hd := congrArg String.data h
  rw [warn_manual, warn_driver] at hd
  have hG : ("Grid ").data = ['G', 'r', 'i', 'd', ' '] := rfl
  have hR : ("Rennen ").data = ['R', 'e', 'n', 'n', 'e', 'n', ' '] := rfl
  simp only [strData_append, hG, hR, List.cons_append, List.append_assoc] at hd
  injection hd with h1 _
  exact absurd h1 (by decide)

theorem warn_manual_ne_warn_auto (gl nm : String) (pos : Nat) (r pos2 : Nat)
    (gl2 nm2 auto2 : String) : warn_manual gl pos nm ≠ warn_auto r gl2 pos2 nm2 auto2 := by
  intro h
  have hd := congrArg String.data h
  rw [warn_manual, warn_auto] at hd
  have hG : ("Grid ").data = ['G', 'r', 'i', 'd', ' '] := rfl
  have hR : ("Rennen ").data = ['R', 'e', 'n', 'n', 'e', 'n', ' '] := rfl
  simp only [strData_append, hG, hR, List.cons_append, List.append_assoc] at hd
  injection hd with h1 _
  exact absurd h1 (by decide)

theorem write_results_sheet_after_singleton (ctm : String → Option String)
    (dm gm : String → Option (String × String)) (s : Store) (data : RaceData)
    (f : Fahrer) (r0 : Nat) (hf : data.fahrer = [f]) :
    (write_results ctm dm gm s data (some r0)).sheet_after =
      (match (write_step ctm dm gm r0 (pyStrip data.grid)
          (resolve_block s r0 (pyStrip data.grid)).1 []
          ⟨[], [(get_grid_label_cell r0 (resolve_block s r0 (pyStrip data.grid)).1,
            .str (pyStrip data.grid))], [], none, none⟩ f).fastest with
       | some ft =>
         if ft.1 ≠ "" then
           update_fastest_lap
             (applyBatch (resolve_block s r0 (pyStrip data.grid)).2
               (write_step ctm dm gm r0 (pyStrip data.grid)
                 (resolve_block s r0 (pyStrip data.grid)).1 []
                 ⟨[], [(get_grid_label_cell r0 (resolve_block s r0 (pyStrip data.grid)).1,
                   .str (pyStrip data.grid))], [], none, none⟩ f).batch)
             r0 ft.1 ft.2
         else
           applyBatch (resolve_block s r0 (pyStrip data.grid)).2
             (write_step ctm dm gm r0 (pyStrip data.grid)
               (resolve_block s r0 (pyStrip data.grid)).1 []
               ⟨[], [(get_grid_label_cell r0 (resolve_block s r0 (pyStrip data.grid)).1,
                 .str (pyStrip data.grid))], [], none, none⟩ f).batch
       | none =>
         applyBatch (resolve_block s r0 (pyStrip data.grid)).2
           (write_step ctm dm gm r0 (pyStrip data.grid)
             (resolve_block s r0 (pyStrip data.grid)).1 []
             ⟨[], [(get_grid_label_cell r0 (resolve_block s r0 (pyStrip data.grid)).1,
               .str (pyStrip data.grid))], [], none, none⟩ f).batch) := by
  simp only [write_results, hf, validate_deltas_singleton, Option.getD_some,
    sortedByPosition_singleton, List.foldl_cons, List.foldl_nil]

/-- C9 amended: a driver row whose raw time is unparsable as a racetime still
has its batched write committed, with the racetime cell written as the empty
string both in the batch and in the final sheet; the manual-entry warning is
emitted exactly when the token is a lap deficit — a merely unparsable token
(DNF, empty, separator-only) produces no manual-entry warning.  Stated for a
single-driver record. -/
theorem C9_unparsable_time_amended (ctm : String → Option String)
    (dm gm : String → Option (String × String)) (s : Store) (data : RaceData)
    (f : Fahrer) (r0 : Nat) (hf : data.fahrer = [f])
    (hrt : (clean_time f.zeit).1 = none) :
    dictGet (write_results ctm dm gm s data (some r0)).batch
        (get_cell r0 (write_results ctm dm gm s data (some r0)).block f.position .racetime) =
      some (.str ("")) ∧
    (write_results ctm dm gm s data (some r0)).sheet_after
        (get_cell r0 (write_results ctm dm gm s data (some r0)).block f.position .racetime) =
      .str ("") ∧
    (∀ lp, (clean_time f.zeit).2 = some lp →
      ∃ nm, warn_manual (write_results ctm dm gm s data (some r0)).grid_label f.position nm ∈
        (write_results ctm dm gm s data (some r0)).warnings) ∧
    ((clean_time f.zeit).2 = none →
      ∀ nm, warn_manual (write_results ctm dm gm s data (some r0)).grid_label f.position nm ∉
        (write_results ctm dm gm s data (some r0)).warnings) := by
  obtain ⟨hwarn, hbatch, _hred, hblk, hgl⟩ :=
    write_results_singleton_core ctm dm gm s data f r0 hf
  have hsheet := write_results_sheet_after_singleton ctm dm gm s data f r0 hf
  rw [hwarn, hbatch, hblk, hgl, hsheet]
  have hdict : dictGet (write_step ctm dm gm r0 (pyStrip data.grid)
      (resolve_block s r0 (pyStrip data.grid)).1 []
      ⟨[], [(get_grid_label_cell r0 (resolve_block s r0 (pyStrip data.grid)).1,
        .str (pyStrip data.grid))], [], none, none⟩ f).batch
      (get_cell r0 (resolve_block s r0 (pyStrip data.grid)).1 f.position .racetime) =
      some (.str ("")) := by
    simp only [write_step, hrt, List.cons_append, List.nil_append]
    exact dictGet_six_fifth _ _ _ _ _ _ _ rfl (get_cell_field_ne _ _ _ _ _ (by decide))
  have hrow : (get_cell r0 (resolve_block s r0 (pyStrip data.grid)).1 f.position
      .racetime).1 ≠ FASTEST_LAP_ROW := by
    simp only [get_cell, row_start, FIRST_DATA_ROW, ROW_OFFSET_PER_GRID, FASTEST_LAP_ROW]
    omega
  refine ⟨hdict, ?_, ?_, ?_⟩
  · cases hft : (write_step ctm dm gm r0 (pyStrip data.grid)
        (resolve_block s r0 (pyStrip data.grid)).1 []
        ⟨[], [(get_grid_label_cell r0 (resolve_block s r0 (pyStrip data.grid)).1,
          .str (pyStrip data.grid))], [], none, none⟩ f).fastest with
    | none =>
      simp only [hft]
      rw [applyBatch_get, hdict, Option.getD_some]
    | some ft =>
      simp only [hft]
      by_cases hft1 : ft.1 ≠ ""
      · rw [if_pos hft1, update_fastest_lap_off_row _ _ _ _ _ hrow, applyBatch_get, hdict,
          Option.getD_some]
      · rw [if_neg hft1, applyBatch_get, hdict, Option.getD_some]
  · intro lp hlp
    rcases hdm : dm (pyLower f.name) with _ | nt
    · rcases hgm : gm (pyLower f.name) with _ | nt2
      · exact ⟨f.name, by simp [write_step, hlp, hdm, hgm]⟩
      · exact ⟨nt2.1, by simp [write_step, hlp, hdm, hgm]⟩
    · exact ⟨nt.1, by simp [write_step, hlp, hdm]⟩
  · intro hlp nm hmem
    rcases hdm : dm (pyLower f.name) with _ | nt
    · rcases hgm : gm (pyLower f.name) with _ | nt2
      · rcases hau : ctm (pyLower f.auto) with _ | canon
        · simp [write_step, hlp, hdm, hgm, hau, warn_manual_ne_warn_driver,
            warn_manual_ne_warn_auto] at hmem
        · simp [write_step, hlp, hdm, hgm, hau, warn_manual_ne_warn_driver,
            warn_manual_ne_warn_auto] at hmem
      · rcases hau : ctm (pyLower f.auto) with _ | canon
        · simp [write_step, hlp, hdm, hgm, hau, warn_manual_ne_warn_driver,
            warn_manual_ne_warn_auto] at hmem
        · simp [write_step, hlp, hdm, hgm, hau, warn_manual_ne_warn_driver,
            warn_manual_ne_warn_auto] at hmem
    · rcases hau : ctm (pyLower f.auto) with _ | canon
      · simp [write_step, hlp, hdm, hau, warn_manual_ne_warn_driver,
          warn_manual_ne_warn_auto] at hmem
      · simp [write_step, hlp, hdm, hau, warn_manual_ne_warn_driver,
          warn_manual_ne_warn_auto] at hmem

/-- Witness for C9 amended: the DNF driver of the fixture record gets an
empty racetime cell in the batch and in the final sheet. -/
theorem C9_unparsable_time_amended_witness :
    dictGet (write_results ctm9 dm0 gm0 blank_store data9 (some 1)).batch
        (get_cell 1 (write_results ctm9 dm0 gm0 blank_store data9 (some 1)).block 2
          .racetime) = some (.str ("")) ∧
    (write_results ctm9 dm0 gm0 blank_store data9 (some 1)).sheet_after
        (get_cell 1 (write_results ctm9 dm0 gm0 blank_store data9 (some 1)).block 2
          .racetime) = .str ("") := by
  have h := C9_unparsable_time_amended ctm9 dm0 gm0 blank_store data9
    ⟨2, "Max", "GT-R", "DNF", ""⟩ 1 rfl (by decide)
  exact ⟨h.1, h.2.1⟩

end RTC
